import Mathlib

/-!
Verification of the Steam-catalog normalization pipeline (PROJET-Steam.py).

The definitions below are a shallow embedding of the PySpark pipeline:
nullable columns become `Option` values, Spark SQL expressions become total
Lean functions with Spark's null-propagation made explicit, and the regular
expressions used by the source (`regexp_replace`, `regexp_extract`,
`F.split`) are implemented as structurally recursive scans over `List Char`
with the same matching semantics (left-to-right, non-overlapping, greedy).
-/

namespace SteamProj

/-! ### Characters and digit strings -/

/-- Whitespace class of the `\s` regex used by `F.split(genre_raw, ",\s*")`. -/
def isJavaSpace (c : Char) : Bool :=
  c == ' ' || c == '\t' || c == '\n' || c == '\r' || c.toNat == 11 || c.toNat == 12

def headIsDigit : List Char → Bool
  | [] => false
  | c :: _ => c.isDigit

/-- Value of a (non-empty) string of decimal digits. -/
def digitsToNat (l : List Char) : Nat :=
  l.foldl (fun a c => 10 * a + (c.toNat - 48)) 0

def isDigitList (l : List Char) : Bool :=
  !l.isEmpty && l.all Char.isDigit

/-! ### Date cleaning (source 4.2.1 - 4.2.3)

Step 1: `regexp_replace(release_date_raw, ",", "")` — delete every comma. -/

def removeCommas : List Char → List Char
  | [] => []
  | c :: rest => if c == ',' then removeCommas rest else c :: removeCommas rest

/-- Step 2: `regexp_replace(release_date_clean, "/", "-")`. -/
def slashToDash : List Char → List Char
  | [] => []
  | c :: rest => (if c == '/' then '-' else c) :: slashToDash rest

/-- Step 3: `regexp_replace(release_date_clean, "-(\d)(?!\d)", "-0$1")`:
left-to-right non-overlapping replacement of a dash followed by a single
digit that is not followed by another digit (lookahead consumes nothing). -/
def padZeros : List Char → List Char
  | [] => []
  | [c] => [c]
  | c :: d :: rest =>
      if c == '-' && d.isDigit && !(headIsDigit rest) then
        '-' :: '0' :: d :: padZeros rest
      else
        c :: padZeros (d :: rest)

/-- The three cleaning steps of 4.2.1-4.2.3, in the source's fixed order. -/
def cleanDate (s : String) : String :=
  String.mk (padZeros (slashToDash (removeCommas s.toList)))

/-- Column `release_date_clean`; `regexp_replace` of a null column is null. -/
def releaseDateClean (raw : Option String) : Option String :=
  raw.map cleanDate

/-! ### Date parsing (source 4.2.4): `F.to_date` for the five patterns.

A parsed date; `to_date` yields a date value or null, never an exception. -/

structure SDate where
  year : Nat
  month : Nat
  day : Nat
deriving DecidableEq, Repr

/-- Proleptic-Gregorian leap year, as used by Spark 3's java.time parser. -/
def isLeapYear (y : Nat) : Bool :=
  (y % 4 == 0) && (y % 100 != 0 || y % 400 == 0)

def daysInMonth (y m : Nat) : Nat :=
  if m = 2 then (if isLeapYear y then 29 else 28)
  else if m = 4 ∨ m = 6 ∨ m = 9 ∨ m = 11 then 30
  else 31

/-- A calendar-valid date or null: Spark 3's `to_date` rejects out-of-range
day/month combinations rather than rolling them over. -/
def mkValidDate (y m d : Nat) : Option SDate :=
  if 1 ≤ m ∧ m ≤ 12 ∧ 1 ≤ d ∧ d ≤ daysInMonth y m then some ⟨y, m, d⟩ else none

/-- US-locale month abbreviations recognised by the `MMM` pattern. -/
def monthAbbrev : List Char → Option Nat
  | ['J', 'a', 'n'] => some 1
  | ['F', 'e', 'b'] => some 2
  | ['M', 'a', 'r'] => some 3
  | ['A', 'p', 'r'] => some 4
  | ['M', 'a', 'y'] => some 5
  | ['J', 'u', 'n'] => some 6
  | ['J', 'u', 'l'] => some 7
  | ['A', 'u', 'g'] => some 8
  | ['S', 'e', 'p'] => some 9
  | ['O', 'c', 't'] => some 10
  | ['N', 'o', 'v'] => some 11
  | ['D', 'e', 'c'] => some 12
  | _ => none

/-- Split on one literal separator character (the literal ' ' or '-' of a
date pattern matches exactly one character). -/
def splitOnChar (sep : Char) : List Char → List (List Char)
  | [] => [[]]
  | c :: rest =>
      if c == sep then [] :: splitOnChar sep rest
      else
        match splitOnChar sep rest with
        | [] => [[c]]
        | t :: ts => (c :: t) :: ts

/-- `to_date(_, "MMM d yyyy")`: month abbreviation, variable-width day,
four-digit year; the whole string must be consumed. -/
def parse_MMM_d_yyyy (s : String) : Option SDate :=
  match splitOnChar ' ' s.toList with
  | [mt, dt, yt] =>
      match monthAbbrev mt with
      | some m =>
          if isDigitList dt = true ∧ isDigitList yt = true ∧ yt.length = 4 then
            mkValidDate (digitsToNat yt) m (digitsToNat dt)
          else none
      | none => none
  | _ => none

/-- `to_date(_, "MMM dd yyyy")`: as above with a fixed two-digit day. -/
def parse_MMM_dd_yyyy (s : String) : Option SDate :=
  match splitOnChar ' ' s.toList with
  | [mt, dt, yt] =>
      match monthAbbrev mt with
      | some m =>
          if isDigitList dt = true ∧ dt.length = 2 ∧ isDigitList yt = true ∧ yt.length = 4 then
            mkValidDate (digitsToNat yt) m (digitsToNat dt)
          else none
      | none => none
  | _ => none

/-- `to_date(_, "yyyy-MM-dd")`: fixed-width numeric fields. -/
def parse_yyyy_MM_dd (s : String) : Option SDate :=
  match splitOnChar '-' s.toList with
  | [yt, mt, dt] =>
      if isDigitList yt = true ∧ yt.length = 4 ∧ isDigitList mt = true ∧ mt.length = 2 ∧
          isDigitList dt = true ∧ dt.length = 2 then
        mkValidDate (digitsToNat yt) (digitsToNat mt) (digitsToNat dt)
      else none
  | _ => none

/-- `to_date(_, "dd MMM yyyy")`. -/
def parse_dd_MMM_yyyy (s : String) : Option SDate :=
  match splitOnChar ' ' s.toList with
  | [dt, mt, yt] =>
      match monthAbbrev mt with
      | some m =>
          if isDigitList dt = true ∧ dt.length = 2 ∧ isDigitList yt = true ∧ yt.length = 4 then
            mkValidDate (digitsToNat yt) m (digitsToNat dt)
          else none
      | none => none
  | _ => none

/-- `to_date(_, "d MMM yyyy")`. -/
def parse_d_MMM_yyyy (s : String) : Option SDate :=
  match splitOnChar ' ' s.toList with
  | [dt, mt, yt] =>
      match monthAbbrev mt with
      | some m =>
          if isDigitList dt = true ∧ isDigitList yt = true ∧ yt.length = 4 then
            mkValidDate (digitsToNat yt) m (digitsToNat dt)
          else none
      | none => none
  | _ => none

/-- `F.coalesce`: the first non-null candidate, null when all are null. -/
def firstSuccess : List (Option SDate) → Option SDate
  | [] => none
  | some d :: _ => some d
  | none :: rest => firstSuccess rest

/-- Column `release_date_parsed` (source 4.2.4): coalesce of the five
`to_date` candidates applied to the cleaned column, in the source's order. -/
def releaseDateParsed (raw : Option String) : Option SDate :=
  raw.bind fun r =>
    let c := cleanDate r
    firstSuccess [parse_MMM_d_yyyy c, parse_MMM_dd_yyyy c, parse_yyyy_MM_dd c,
      parse_dd_MMM_yyyy c, parse_d_MMM_yyyy c]

/-- Source 4.2.5: `F.when(col.isNull(), None).otherwise(col)`. -/
def dateSafetyGuard : Option SDate → Option SDate
  | none => none
  | some v => some v

/-- `release_date_parsed` after the final safety step of 4.2.5. -/
def releaseDateParsedGuarded (raw : Option String) : Option SDate :=
  dateSafetyGuard (releaseDateParsed raw)

/-! ### Temporal features (source 4.3) -/

def COVID_START_YEAR : Int := 2019
def COVID_END_YEAR : Int := 2021

/-- Column `covid_period`: the `F.when` chain of 4.3.1.  A null comparison is
falsy in Spark, so the null test coming first makes the later branches total. -/
def covid_period (release_year : Option Int) : String :=
  match release_year with
  | none => "unknown"
  | some n =>
      if n < COVID_START_YEAR then "pre_covid"
      else if COVID_START_YEAR ≤ n ∧ n ≤ COVID_END_YEAR then "covid"
      else "post_covid"

/-! ### Popularity metrics (source 4.4.1) -/

/-- Two's-complement wrap-around of a signed 64-bit long, as performed by
Spark's non-ANSI `LongType` arithmetic (Java `long` addition). -/
def wrapInt64 (v : Int) : Int :=
  (v + 9223372036854775808) % 18446744073709551616 - 9223372036854775808

/-- `total_reviews = (positive + negative).cast(LongType)`: Spark's `+` is
null-propagating, and on two longs it is Java 64-bit addition, which wraps
on overflow (the trailing cast is a no-op). -/
def total_reviews (positive negative : Option Int) : Option Int :=
  match positive, negative with
  | some a, some b => some (wrapInt64 (a + b))
  | _, _ => none

/-- `positive_ratio = F.when(total_reviews > 0, positive / total_reviews)
.otherwise(None)`: the test and the division both read the stored (wrapped)
64-bit total; a null or non-positive total falls to the otherwise branch
(a null comparison is falsy).  The double division is modelled by its exact
rational value. -/
def positiveRatioCol (positive negative : Option Int) : Option ℚ :=
  match positive, negative with
  | some a, some b =>
      if 0 < wrapInt64 (a + b) then some ((a : ℚ) / ((wrapInt64 (a + b) : Int) : ℚ))
      else none
  | _, _ => none

/-! ### Numeric coercion (source 4.1)

Spark casts of a string column yield a value or null, never an exception. -/

/-- `UTF8String` trim applied by Spark before a numeric cast. -/
def trimWs (l : List Char) : List Char :=
  ((l.dropWhile isJavaSpace).reverse.dropWhile isJavaSpace).reverse

def castDigitsToLong (neg : Bool) (ds : List Char) : Option Int :=
  if isDigitList ds = true then
    let v : Int := if neg then -(digitsToNat ds : Int) else (digitsToNat ds : Int)
    if -(9223372036854775808 : Int) ≤ v ∧ v ≤ 9223372036854775807 then some v else none
  else none

/-- `cast(T.LongType())` on a string: optional sign, decimal digits, 64-bit
range; anything else is null. -/
def castStringToLong (s : String) : Option Int :=
  match trimWs s.toList with
  | '+' :: ds => castDigitsToLong false ds
  | '-' :: ds => castDigitsToLong true ds
  | ds => castDigitsToLong false ds

/-- One decimal literal (digits, optional fraction) as an exact rational.
Exponent forms and the special float literals of the Java parser are not
modelled and map to null; every claim about these casts concerns only the
value-or-null totality, which this preserves. -/
def parseDecMantissa (l : List Char) : Option ℚ :=
  let ip := l.takeWhile Char.isDigit
  let rest := l.dropWhile Char.isDigit
  match rest with
  | [] => if ip.isEmpty then none else some ((digitsToNat ip : ℚ))
  | '.' :: fr =>
      let fp := fr.takeWhile Char.isDigit
      let rest2 := fr.dropWhile Char.isDigit
      if rest2.isEmpty && !(ip.isEmpty && fp.isEmpty) then
        some ((digitsToNat ip : ℚ) + (digitsToNat fp : ℚ) / (10 : ℚ) ^ fp.length)
      else none
  | _ => none

/-- `cast(T.DoubleType())` on a string: signed decimal value or null. -/
def castStringToDouble (s : String) : Option ℚ :=
  match trimWs s.toList with
  | '+' :: rest => parseDecMantissa rest
  | '-' :: rest => (parseDecMantissa rest).map (fun q => -q)
  | l => parseDecMantissa l

/-- `regexp_extract(required_age_str, "(\d+)", 1)`: the first match of a
maximal run of digits, or the empty string when there is none. -/
def firstDigitRun : List Char → List Char
  | [] => []
  | c :: rest => if c.isDigit then c :: rest.takeWhile Char.isDigit else firstDigitRun rest

/-- `cast(T.IntegerType())` of the extracted digit string: the empty string
(no match) is null, and an overflowing value is null. -/
def castDigitsToInt (l : List Char) : Option Int :=
  if l.isEmpty then none
  else if digitsToNat l ≤ 2147483647 then some (digitsToNat l) else none

/-- Column `required_age` (source lines 184-188): raw value kept as string,
first digit run extracted and cast to an integer. -/
def required_age (raw : Option String) : Option Int :=
  raw.bind fun s => castDigitsToInt (firstDigitRun s.toList)

/-- Column `price = price_raw.cast(DoubleType)`. -/
def priceCol (raw : Option String) : Option ℚ := raw.bind castStringToDouble

/-- Column `initialprice = initialprice_raw.cast(DoubleType)`. -/
def initialpriceCol (raw : Option String) : Option ℚ := raw.bind castStringToDouble

/-- Column `discount = discount_raw.cast(DoubleType)`. -/
def discountCol (raw : Option String) : Option ℚ := raw.bind castStringToDouble

/-- Column `positive = positive_raw.cast(LongType)`. -/
def positiveCol (raw : Option String) : Option Int := raw.bind castStringToLong

/-- Column `negative = negative_raw.cast(LongType)`. -/
def negativeCol (raw : Option String) : Option Int := raw.bind castStringToLong

/-! ### Genre explosion (source 6.1)

`F.split(genre_raw, ",\s*")` is Java's `String.split` with limit -1: scan
left to right for non-overlapping matches of a comma followed by a greedy
run of whitespace; the segments between matches are the tokens, and
trailing empty tokens are kept. -/

def consHead (c : Char) : List (List Char) → List (List Char)
  | [] => [[c]]
  | t :: ts => (c :: t) :: ts

/-- The scan: `inSep` is true while the greedy `\s*` tail of a separator may
still extend. -/
def splitGo : Bool → List Char → List (List Char)
  | _, [] => [[]]
  | true, c :: rest =>
      if isJavaSpace c then splitGo true rest
      else if c == ',' then [] :: splitGo true rest
      else consHead c (splitGo false rest)
  | false, c :: rest =>
      if c == ',' then [] :: splitGo true rest
      else consHead c (splitGo false rest)

def splitCommaWs (l : List Char) : List (List Char) := splitGo false l

/-- Column `genre_array = F.split(genre_raw, ",\s*")`; null input stays null. -/
def genre_array (raw : Option String) : Option (List String) :=
  raw.map fun s => (splitCommaWs s.toList).map String.mk

/-- Genre rows contributed to `genres_exploded_df`: `F.explode` of the array
(zero rows for a null array) filtered by `genre.isNotNull() & (genre != "")`. -/
def explodeGenres (raw : Option String) : List String :=
  match genre_array raw with
  | none => []
  | some ts => ts.filter (fun t => t != "")

/-- A token has no leading whitespace character. -/
def headNotWs : List Char → Bool
  | [] => true
  | c :: _ => !(isJavaSpace c)

/-! ### Flattening (source 3.1, build_games_df) -/

/-- The nested `data.platforms` struct. -/
structure Platforms where
  linux : Option Bool
  mac : Option Bool
  windows : Option Bool
deriving DecidableEq, Repr

/-- The nested `data` struct of one raw catalog record. -/
structure SteamData where
  appid : Option Int
  name : Option String
  genre : Option String
  publisher : Option String
  developer : Option String
  type : Option String
  price : Option String
  initialprice : Option String
  discount : Option String
  required_age : Option String
  positive : Option String
  negative : Option String
  languages : Option String
  owners : Option String
  ccu : Option Int
  platforms : Option Platforms
  release_date : Option String
deriving DecidableEq, Repr

/-- One raw input record: top-level id plus the `data` sub-object. -/
structure RawRecord where
  id : Option Int
  data : Option SteamData
deriving DecidableEq, Repr

/-- One row of `games_df` after `build_games_df`: a field per `withColumn`. -/
structure FlatRecord where
  id : Option Int
  app_id : Option Int
  name : Option String
  genre_raw : Option String
  publisher : Option String
  developer : Option String
  type : Option String
  price_raw : Option String
  initialprice_raw : Option String
  discount_raw : Option String
  required_age_raw : Option String
  positive_raw : Option String
  negative_raw : Option String
  languages_raw : Option String
  owners_raw : Option String
  ccu : Option Int
  platform_linux : Option Bool
  platform_mac : Option Bool
  platform_windows : Option Bool
  release_date_raw : Option String
deriving DecidableEq, Repr

/-- The projections of `build_games_df`: `F.col("data.x")` is null whenever
`data` (or the inner struct) is null. -/
def flattenRecord (r : RawRecord) : FlatRecord where
  id := r.id
  app_id := r.data.bind (·.appid)
  name := r.data.bind (·.name)
  genre_raw := r.data.bind (·.genre)
  publisher := r.data.bind (·.publisher)
  developer := r.data.bind (·.developer)
  type := r.data.bind (·.type)
  price_raw := r.data.bind (·.price)
  initialprice_raw := r.data.bind (·.initialprice)
  discount_raw := r.data.bind (·.discount)
  required_age_raw := r.data.bind (·.required_age)
  positive_raw := r.data.bind (·.positive)
  negative_raw := r.data.bind (·.negative)
  languages_raw := r.data.bind (·.languages)
  owners_raw := r.data.bind (·.owners)
  ccu := r.data.bind (·.ccu)
  platform_linux := r.data.bind fun d => d.platforms.bind (·.linux)
  platform_mac := r.data.bind fun d => d.platforms.bind (·.mac)
  platform_windows := r.data.bind fun d => d.platforms.bind (·.windows)
  release_date_raw := r.data.bind (·.release_date)

/-- `games_df = build_games_df(df)`: a pure per-record projection. -/
def buildGamesDf (rs : List RawRecord) : List FlatRecord :=
  rs.map flattenRecord

/-- `F.when(col == True, 1).otherwise(0)`, the consumer pattern the source
uses for platform flags: a null flag compares falsy and counts as 0. -/
def whenTrueOne (x : Option Bool) : Int :=
  if x = some true then 1 else 0

/-- A record whose `data` has no `platforms` struct at all. -/
def noPlatformsRecord : RawRecord :=
  { id := some 1,
    data := some
      { appid := some 10, name := some "g", genre := none, publisher := none,
        developer := none, type := none, price := none, initialprice := none,
        discount := none, required_age := none, positive := none, negative := none,
        languages := none, owners := none, ccu := none, platforms := none,
        release_date := none } }

/-- A record with no primary identifier. -/
def rMissingId : RawRecord := { id := none, data := none }

/-! ### Platform-profile consumers (source 7.3, lines 913-938)

Spark SQL booleans are three-valued: a comparison against a null flag is
null, and `&` follows Kleene logic. -/

/-- `col == True` on a nullable boolean column. -/
def sparkEqTrue (x : Option Bool) : Option Bool :=
  x.map (fun b => b == true)

/-- `col == False` on a nullable boolean column. -/
def sparkEqFalse (x : Option Bool) : Option Bool :=
  x.map (fun b => b == false)

/-- Spark's `&` (Kleene conjunction): false dominates, null is unknown. -/
def sparkAnd : Option Bool → Option Bool → Option Bool
  | some false, _ => some false
  | _, some false => some false
  | some true, some true => some true
  | _, _ => none

/-- Column `is_windows_only` (lines 915-920):
`(windows == True) & (mac == False) & (linux == False)`. -/
def is_windows_only (f : FlatRecord) : Option Bool :=
  sparkAnd (sparkAnd (sparkEqTrue f.platform_windows) (sparkEqFalse f.platform_mac))
    (sparkEqFalse f.platform_linux)

/-- Column `is_tri_platform` (lines 921-926). -/
def is_tri_platform (f : FlatRecord) : Option Bool :=
  sparkAnd (sparkAnd (sparkEqTrue f.platform_windows) (sparkEqTrue f.platform_mac))
    (sparkEqTrue f.platform_linux)

/-- Column `is_windows_mac` (lines 927-932). -/
def is_windows_mac (f : FlatRecord) : Option Bool :=
  sparkAnd (sparkAnd (sparkEqTrue f.platform_windows) (sparkEqTrue f.platform_mac))
    (sparkEqFalse f.platform_linux)

/-- Column `is_windows_linux` (lines 933-938). -/
def is_windows_linux (f : FlatRecord) : Option Bool :=
  sparkAnd (sparkAnd (sparkEqTrue f.platform_windows) (sparkEqFalse f.platform_mac))
    (sparkEqTrue f.platform_linux)

/-- A `data` struct with every field absent. -/
def emptyData : SteamData :=
  { appid := none, name := none, genre := none, publisher := none,
    developer := none, type := none, price := none, initialprice := none,
    discount := none, required_age := none, positive := none, negative := none,
    languages := none, owners := none, ccu := none, platforms := none,
    release_date := none }

/-- Windows true, linux false, mac flag absent. -/
def winNoMacRecord : RawRecord :=
  { id := some 2,
    data := some { emptyData with
      platforms := some { linux := some false, mac := none, windows := some true } } }

/-- Windows true, linux false, mac flag explicitly false. -/
def winFalseMacRecord : RawRecord :=
  { id := some 3,
    data := some { emptyData with
      platforms := some { linux := some false, mac := some false, windows := some true } } }

/-! ### Already-clean date strings (for the idempotence property) -/

def hasComma (l : List Char) : Bool := l.any (fun c => c == ',')

def hasSlash (l : List Char) : Bool := l.any (fun c => c == '/')

/-- Whether the padding regex `-(\d)(?!\d)` has a match anywhere. -/
def hasPadMatch : List Char → Bool
  | [] => false
  | [_] => false
  | c :: d :: rest =>
      (c == '-' && d.isDigit && !(headIsDigit rest)) || hasPadMatch (d :: rest)

/-! ## Lemmas about the coalesce chain -/

theorem firstSuccess_eq_none_iff (x : Option SDate) (l : List (Option SDate)) :
    firstSuccess (x :: l) = none ↔ x = none ∧ firstSuccess l = none := by
  cases x <;> simp [firstSuccess]

/-! ## C1: the date cleaning and parsing pipeline -/

/-- C1: `release_date_clean` applies, in this fixed order, comma removal,
`/`-to-`-` replacement and zero-padding of a lone digit after a dash, and
`release_date_parsed` is the first of the five ordered candidate formats
that parses the cleaned string — first match wins — and null when none
does (totality of the embedding gives "never an exception"). -/
theorem date_pipeline_claim (s : String) :
    releaseDateClean none = none ∧
    releaseDateClean (some s) = some (String.mk (padZeros (slashToDash (removeCommas s.toList)))) ∧
    releaseDateParsed none = none ∧
    (releaseDateParsed (some s) = none ↔
      parse_MMM_d_yyyy (cleanDate s) = none ∧ parse_MMM_dd_yyyy (cleanDate s) = none ∧
      parse_yyyy_MM_dd (cleanDate s) = none ∧ parse_dd_MMM_yyyy (cleanDate s) = none ∧
      parse_d_MMM_yyyy (cleanDate s) = none) ∧
    (∀ d, parse_MMM_d_yyyy (cleanDate s) = some d →
      releaseDateParsed (some s) = some d) ∧
    (∀ d, parse_MMM_d_yyyy (cleanDate s) = none →
      parse_MMM_dd_yyyy (cleanDate s) = some d →
      releaseDateParsed (some s) = some d) ∧
    (∀ d, parse_MMM_d_yyyy (cleanDate s) = none →
      parse_MMM_dd_yyyy (cleanDate s) = none →
      parse_yyyy_MM_dd (cleanDate s) = some d →
      releaseDateParsed (some s) = some d) ∧
    (∀ d, parse_MMM_d_yyyy (cleanDate s) = none →
      parse_MMM_dd_yyyy (cleanDate s) = none →
      parse_yyyy_MM_dd (cleanDate s) = none →
      parse_dd_MMM_yyyy (cleanDate s) = some d →
      releaseDateParsed (some s) = some d) ∧
    (∀ d, parse_MMM_d_yyyy (cleanDate s) = none →
      parse_MMM_dd_yyyy (cleanDate s) = none →
      parse_yyyy_MM_dd (cleanDate s) = none →
      parse_dd_MMM_yyyy (cleanDate s) = none →
      parse_d_MMM_yyyy (cleanDate s) = some d →
      releaseDateParsed (some s) = some d) := by
  have hb : releaseDateParsed (some s) =
      firstSuccess [parse_MMM_d_yyyy (cleanDate s), parse_MMM_dd_yyyy (cleanDate s),
        parse_yyyy_MM_dd (cleanDate s), parse_dd_MMM_yyyy (cleanDate s),
        parse_d_MMM_yyyy (cleanDate s)] := rfl
  refine ⟨rfl, rfl, rfl, ?_, ?_, ?_, ?_, ?_, ?_⟩
  · rw [hb]
    simp only [firstSuccess_eq_none_iff]
    simp [firstSuccess]
  · intro d h1
    rw [hb, h1]; rfl
  · intro d h1 h2
    rw [hb, h1, h2]; rfl
  · intro d h1 h2 h3
    rw [hb, h1, h2, h3]; rfl
  · intro d h1 h2 h3 h4
    rw [hb, h1, h2, h3, h4]; rfl
  · intro d h1 h2 h3 h4 h5
    rw [hb, h1, h2, h3, h4, h5]; rfl

/-- Spec scenario exercised through the pipeline: `"Oct 21, 2008"` cleans to
`"Oct 21 2008"` and parses through the first candidate format. -/
theorem date_pipeline_claim_witness :
    releaseDateParsed (some "Oct 21, 2008") = some ⟨2008, 10, 21⟩ := by
  obtain ⟨-, -, -, -, h5, -, -, -, -⟩ := date_pipeline_claim "Oct 21, 2008"
  exact h5 ⟨2008, 10, 21⟩ (by decide)

/-! ## C10: the final safety guard is the identity -/

/-- C10: the 4.2.5 guard (`when(isNull, None).otherwise(col)`) maps every
value to itself, so the pipeline with and without this step yields an equal
column, record by record and table by table. -/
theorem safety_guard_identity_claim :
    (∀ d : Option SDate, dateSafetyGuard d = d) ∧
    (∀ raw : Option String, releaseDateParsedGuarded raw = releaseDateParsed raw) ∧
    (∀ table : List (Option SDate), table.map dateSafetyGuard = table) := by
  have h : ∀ d : Option SDate, dateSafetyGuard d = d := by
    intro d; cases d <;> rfl
  refine ⟨h, fun raw => h _, fun table => ?_⟩
  induction table with
  | nil => rfl
  | cons x xs ih => simp only [List.map_cons, h x, ih]

/-! ## C2: the covid period bucket -/

theorem covid_period_eq_unknown_iff (y : Option Int) :
    covid_period y = "unknown" ↔ y = none := by
  rcases y with _ | n
  · simp [covid_period]
  · simp only [covid_period]
    constructor
    · intro h
      split_ifs at h <;> exact absurd h (by decide)
    · intro h
      exact Option.noConfusion h

theorem covid_period_eq_pre_iff (y : Option Int) :
    covid_period y = "pre_covid" ↔ ∃ n, y = some n ∧ n < COVID_START_YEAR := by
  rcases y with _ | n
  · constructor
    · intro h; exact absurd h (by decide)
    · rintro ⟨n, hn, -⟩; exact Option.noConfusion hn
  · simp only [covid_period]
    split_ifs with h1 h2
    · exact ⟨fun _ => ⟨n, rfl, h1⟩, fun _ => rfl⟩
    · constructor
      · intro h; exact absurd h (by decide)
      · rintro ⟨m, hm, hlt⟩
        obtain rfl : n = m := Option.some.inj hm
        exact absurd hlt h1
    · constructor
      · intro h; exact absurd h (by decide)
      · rintro ⟨m, hm, hlt⟩
        obtain rfl : n = m := Option.some.inj hm
        exact absurd hlt h1

theorem covid_period_eq_covid_iff (y : Option Int) :
    covid_period y = "covid" ↔
      ∃ n, y = some n ∧ COVID_START_YEAR ≤ n ∧ n ≤ COVID_END_YEAR := by
  rcases y with _ | n
  · constructor
    · intro h; exact absurd h (by decide)
    · rintro ⟨n, hn, -⟩; exact Option.noConfusion hn
  · simp only [covid_period]
    split_ifs with h1 h2
    · constructor
      · intro h; exact absurd h (by decide)
      · rintro ⟨m, hm, hle, -⟩
        obtain rfl : n = m := Option.some.inj hm
        exact absurd hle (not_le.mpr h1)
    · exact ⟨fun _ => ⟨n, rfl, h2⟩, fun _ => rfl⟩
    · constructor
      · intro h; exact absurd h (by decide)
      · rintro ⟨m, hm, hle1, hle2⟩
        obtain rfl : n = m := Option.some.inj hm
        exact (h2 ⟨hle1, hle2⟩).elim

theorem covid_period_eq_post_iff (y : Option Int) :
    covid_period y = "post_covid" ↔ ∃ n, y = some n ∧ COVID_END_YEAR < n := by
  rcases y with _ | n
  · constructor
    · intro h; exact absurd h (by decide)
    · rintro ⟨n, hn, -⟩; exact Option.noConfusion hn
  · simp only [covid_period]
    split_ifs with h1 h2
    · constructor
      · intro h; exact absurd h (by decide)
      · rintro ⟨m, hm, hlt⟩
        obtain rfl : n = m := Option.some.inj hm
        have hc : COVID_START_YEAR ≤ COVID_END_YEAR := by decide
        exact absurd (hlt.trans h1) (not_lt.mpr hc)
    · constructor
      · intro h; exact absurd h (by decide)
      · rintro ⟨m, hm, hlt⟩
        obtain rfl : n = m := Option.some.inj hm
        exact absurd hlt (not_lt.mpr h2.2)
    · constructor
      · intro _
        have hge : COVID_START_YEAR ≤ n := not_lt.mp h1
        have hgt : ¬ (n ≤ COVID_END_YEAR) := fun hle => h2 ⟨hge, hle⟩
        exact ⟨n, rfl, not_le.mp hgt⟩
      · intro _; rfl

/-- C2: `covid_period` is total and mutually exclusive over the four fixed
labels — the code's strings `pre_covid`, `covid`, `post_covid`, `unknown`
realise the spec's buckets `pre`, `during`, `post`, `unknown` — with the
boundaries null → unknown, year < 2019 → pre, 2019 ≤ year ≤ 2021 → during,
year > 2021 → post, and the spec's example years behave as claimed. -/
theorem covid_period_claim (y : Option Int) :
    (covid_period y = "unknown" ∨ covid_period y = "pre_covid" ∨
      covid_period y = "covid" ∨ covid_period y = "post_covid") ∧
    (covid_period y = "unknown" ↔ y = none) ∧
    (covid_period y = "pre_covid" ↔ ∃ n, y = some n ∧ n < COVID_START_YEAR) ∧
    (covid_period y = "covid" ↔
      ∃ n, y = some n ∧ COVID_START_YEAR ≤ n ∧ n ≤ COVID_END_YEAR) ∧
    (covid_period y = "post_covid" ↔ ∃ n, y = some n ∧ COVID_END_YEAR < n) ∧
    COVID_START_YEAR = 2019 ∧ COVID_END_YEAR = 2021 ∧
    covid_period (some 2018) = "pre_covid" ∧
    covid_period (some 2019) = "covid" ∧
    covid_period (some 2021) = "covid" ∧
    covid_period (some 2022) = "post_covid" ∧
    covid_period none = "unknown" := by
  refine ⟨?_, covid_period_eq_unknown_iff y, covid_period_eq_pre_iff y,
    covid_period_eq_covid_iff y, covid_period_eq_post_iff y,
    rfl, rfl, by decide, by decide, by decide, by decide, rfl⟩
  rcases y with _ | n
  · exact Or.inl rfl
  · simp only [covid_period]
    split_ifs
    · exact Or.inr (Or.inl rfl)
    · exact Or.inr (Or.inr (Or.inl rfl))
    · exact Or.inr (Or.inr (Or.inr rfl))


/-! ## C3: total_reviews and positive_ratio -/

/-- C3 counterexample: the claim says `positive_ratio` is null iff
`total_reviews` is null or zero, but a negative total (castable from raw
text) also yields a null ratio: at `positive = -1, negative = 0` the total
is `-1`, neither null nor zero, and the ratio is null. -/
theorem reviews_claim_counterexample :
    ¬ (positiveRatioCol (some (-1)) (some 0) = none ↔
        (total_reviews (some (-1)) (some 0) = none ∨
         total_reviews (some (-1)) (some 0) = some 0)) := by
  decide

theorem wrapInt64_eq_self (v : Int)
    (h1 : -(9223372036854775808 : Int) ≤ v) (h2 : v ≤ 9223372036854775807) :
    wrapInt64 v = v := by
  unfold wrapInt64
  omega

/-- C3 amended: `total_reviews` stores the 64-bit wrapped sum of the two
counters — equal to `positive + negative` exactly when that sum fits in a
signed long — when both are present and is null otherwise;
`positive_ratio = positive / total_reviews` whenever the stored total is
positive; and the ratio is null iff the total is null or is not positive
(zero or negative) — never a division by zero, never a default. -/
theorem reviews_claim_amended (p n : Option Int) :
    (∀ a b : Int, p = some a → n = some b →
        total_reviews p n = some (wrapInt64 (a + b)) ∧
        (-(9223372036854775808 : Int) ≤ a + b → a + b ≤ 9223372036854775807 →
          total_reviews p n = some (a + b))) ∧
    ((p = none ∨ n = none) → total_reviews p n = none) ∧
    (∀ a t : Int, p = some a → total_reviews p n = some t → 0 < t →
        positiveRatioCol p n = some ((a : ℚ) / (t : ℚ))) ∧
    (positiveRatioCol p n = none ↔
        total_reviews p n = none ∨ ∃ t, total_reviews p n = some t ∧ t ≤ 0) := by
  rcases p with _ | a <;> rcases n with _ | b
  · exact ⟨fun a b hp _ => Option.noConfusion hp, fun _ => rfl,
      fun a t hp _ _ => Option.noConfusion hp,
      iff_of_true rfl (Or.inl rfl)⟩
  · exact ⟨fun a b hp _ => Option.noConfusion hp, fun _ => rfl,
      fun a t hp _ _ => Option.noConfusion hp,
      iff_of_true rfl (Or.inl rfl)⟩
  · exact ⟨fun a b _ hn => Option.noConfusion hn, fun _ => rfl,
      fun a t _ ht _ => Option.noConfusion ht,
      iff_of_true rfl (Or.inl rfl)⟩
  · refine ⟨?_, ?_, ?_, ?_⟩
    · intro a' b' hp hn
      obtain rfl : a = a' := Option.some.inj hp
      obtain rfl : b = b' := Option.some.inj hn
      exact ⟨rfl, fun hlo hhi => by
        show some (wrapInt64 (a + b)) = some (a + b)
        rw [wrapInt64_eq_self (a + b) hlo hhi]⟩
    · rintro (h | h) <;> exact Option.noConfusion h
    · intro a' t hp ht h0
      obtain rfl : a = a' := Option.some.inj hp
      obtain rfl : wrapInt64 (a + b) = t := Option.some.inj ht
      simp only [positiveRatioCol, if_pos h0]
    · simp only [positiveRatioCol, total_reviews]
      by_cases h0 : 0 < wrapInt64 (a + b)
      · rw [if_pos h0]
        constructor
        · intro h; exact Option.noConfusion h
        · rintro (h | ⟨t, ht, hle⟩)
          · exact Option.noConfusion h
          · obtain rfl : wrapInt64 (a + b) = t := Option.some.inj ht
            exact absurd h0 (not_lt.mpr hle)
      · rw [if_neg h0]
        exact iff_of_true rfl (Or.inr ⟨wrapInt64 (a + b), rfl, not_lt.mp h0⟩)

/-- Spec scenario `positive = 90, negative = 10`: total 100, ratio 90/100;
the in-range sum is stored unwrapped. -/
theorem reviews_claim_witness :
    total_reviews (some 90) (some 10) = some 100 ∧
    positiveRatioCol (some 90) (some 10) = some ((90 : ℚ) / (100 : ℚ)) := by
  obtain ⟨h1, -, h3, -⟩ := reviews_claim_amended (some 90) (some 10)
  constructor
  · have h := (h1 90 10 rfl rfl).2 (by norm_num) (by norm_num)
    norm_num at h
    exact h
  · exact h3 90 100 rfl (by decide) (by norm_num)

/-! ## C5: numeric coercion is total, and the age extraction -/

theorem firstDigitRun_eq_nil (l : List Char) (h : ∀ c ∈ l, c.isDigit = false) :
    firstDigitRun l = [] := by
  induction l with
  | nil => rfl
  | cons c rest ih =>
      have hc := h c (by simp)
      simp only [firstDigitRun, hc, Bool.false_eq_true, if_false]
      exact ih fun c hc' => h c (List.mem_cons_of_mem _ hc')

theorem firstDigitRun_append (pre : List Char) (d : Char) (post : List Char)
    (hpre : ∀ c ∈ pre, c.isDigit = false) (hd : d.isDigit = true) :
    firstDigitRun (pre ++ d :: post) = d :: post.takeWhile Char.isDigit := by
  induction pre with
  | nil => simp [firstDigitRun, hd]
  | cons c pre' ih =>
      have hc := hpre c (by simp)
      simp only [List.cons_append, firstDigitRun, hc, Bool.false_eq_true, if_false]
      exact ih fun c hc' => hpre c (List.mem_cons_of_mem _ hc')

/-- C5: every numeric cast of a raw field yields a value of its type or
null — the coercions are total functions over arbitrary text, so no
exception can propagate — and the age column is the first contiguous digit
run anywhere in the text cast to an integer, null when no digit occurs. -/
theorem coercion_claim (s : String) :
    (∀ raw : Option String,
      (priceCol raw = none ∨ ∃ q, priceCol raw = some q) ∧
      (initialpriceCol raw = none ∨ ∃ q, initialpriceCol raw = some q) ∧
      (discountCol raw = none ∨ ∃ q, discountCol raw = some q) ∧
      (positiveCol raw = none ∨ ∃ v, positiveCol raw = some v) ∧
      (negativeCol raw = none ∨ ∃ v, negativeCol raw = some v) ∧
      (required_age raw = none ∨ ∃ v, required_age raw = some v)) ∧
    required_age none = none ∧
    required_age (some s) = castDigitsToInt (firstDigitRun s.toList) ∧
    ((∀ c ∈ s.toList, c.isDigit = false) → required_age (some s) = none) ∧
    (∀ pre (d : Char) post, s.toList = pre ++ d :: post →
      (∀ c ∈ pre, c.isDigit = false) → d.isDigit = true →
      required_age (some s) = castDigitsToInt (d :: post.takeWhile Char.isDigit)) := by
  have tot : ∀ {α : Type} (o : Option α), o = none ∨ ∃ v, o = some v := by
    intro α o
    cases o with
    | none => exact Or.inl rfl
    | some v => exact Or.inr ⟨v, rfl⟩
  refine ⟨fun raw => ⟨tot _, tot _, tot _, tot _, tot _, tot _⟩, rfl, rfl, ?_, ?_⟩
  · intro hnd
    show castDigitsToInt (firstDigitRun s.toList) = none
    rw [firstDigitRun_eq_nil _ hnd]
    rfl
  · intro pre d post hsplit hpre hd
    show castDigitsToInt (firstDigitRun s.toList) = _
    rw [hsplit, firstDigitRun_append pre d post hpre hd]

/-- Age extraction at a concrete mixed text: `"age 18 plus"` yields 18. -/
theorem coercion_claim_witness :
    required_age (some "age 18 plus") = some 18 := by
  obtain ⟨-, -, -, -, h5⟩ := coercion_claim "age 18 plus"
  have e := h5 ['a', 'g', 'e', ' '] '1' ['8', ' ', 'p', 'l', 'u', 's']
    (by decide) (by decide) (by decide)
  rw [e]
  decide


/-! ## C9: cleaning is the identity on already-clean strings -/

theorem removeCommas_eq_self : ∀ l : List Char, hasComma l = false → removeCommas l = l
  | [], _ => rfl
  | c :: rest, h => by
      simp only [hasComma, List.any_cons, Bool.or_eq_false_iff] at h
      obtain ⟨h1, h2⟩ := h
      simp only [removeCommas, h1, Bool.false_eq_true, if_false]
      exact congrArg (c :: ·) (removeCommas_eq_self rest h2)

theorem slashToDash_eq_self : ∀ l : List Char, hasSlash l = false → slashToDash l = l
  | [], _ => rfl
  | c :: rest, h => by
      simp only [hasSlash, List.any_cons, Bool.or_eq_false_iff] at h
      obtain ⟨h1, h2⟩ := h
      simp only [slashToDash, h1, Bool.false_eq_true, if_false]
      exact congrArg (c :: ·) (slashToDash_eq_self rest h2)

theorem padZeros_eq_self : ∀ l : List Char, hasPadMatch l = false → padZeros l = l
  | [], _ => rfl
  | [_], _ => rfl
  | c :: d :: rest, h => by
      simp only [hasPadMatch, Bool.or_eq_false_iff] at h
      obtain ⟨h1, h2⟩ := h
      simp only [padZeros, h1, Bool.false_eq_true, if_false]
      exact congrArg (c :: ·) (padZeros_eq_self (d :: rest) h2)

theorem cleanDate_eq_self (s : String) (h1 : hasComma s.toList = false)
    (h2 : hasSlash s.toList = false) (h3 : hasPadMatch s.toList = false) :
    cleanDate s = s := by
  show String.mk (padZeros (slashToDash (removeCommas s.toList))) = s
  rw [removeCommas_eq_self _ h1, slashToDash_eq_self _ h2, padZeros_eq_self _ h3]
  cases s
  rfl

/-- C9: on a string that is already clean — no comma, no slash, and no lone
digit after a dash for the padding regex to rewrite — the cleaning
transform is the identity; in particular `"2000-11-01"` cleans to itself
and parses via the `yyyy-MM-dd` candidate (the two earlier candidates
fail on it, so that candidate is the one that succeeds). -/
theorem clean_idempotent_claim (s : String) (h1 : hasComma s.toList = false)
    (h2 : hasSlash s.toList = false) (h3 : hasPadMatch s.toList = false) :
    cleanDate s = s ∧
    cleanDate "2000-11-01" = "2000-11-01" ∧
    parse_MMM_d_yyyy "2000-11-01" = none ∧
    parse_MMM_dd_yyyy "2000-11-01" = none ∧
    parse_yyyy_MM_dd "2000-11-01" = some ⟨2000, 11, 1⟩ ∧
    releaseDateParsed (some "2000-11-01") = some ⟨2000, 11, 1⟩ :=
  ⟨cleanDate_eq_self s h1 h2 h3, by decide, by decide, by decide, by decide, by decide⟩

/-- The idempotence hypotheses hold at the canonical string itself. -/
theorem clean_idempotent_claim_witness :
    cleanDate "2000-11-01" = "2000-11-01" :=
  (clean_idempotent_claim "2000-11-01" (by decide) (by decide) (by decide)).1

/-! ## C4: genre splitting -/

theorem consHead_ne_nil (c : Char) (ts : List (List Char)) : consHead c ts ≠ [] := by
  cases ts <;> simp [consHead]

theorem splitGo_ne_nil (l : List Char) : ∀ b, splitGo b l ≠ [] := by
  induction l with
  | nil => intro b; cases b <;> simp [splitGo]
  | cons c rest ih =>
      intro b
      cases b
      · simp only [splitGo]
        split
        · simp
        · exact consHead_ne_nil _ _
      · simp only [splitGo]
        split
        · exact ih true
        · split
          · simp
          · exact consHead_ne_nil _ _

theorem splitGo_headNotWs (l : List Char) :
    (∀ t ∈ splitGo true l, headNotWs t = true) ∧
    (∀ t ∈ (splitGo false l).tail, headNotWs t = true) := by
  induction l with
  | nil =>
      constructor
      · intro t ht
        simp only [splitGo, List.mem_singleton] at ht
        subst ht
        rfl
      · intro t ht
        simp [splitGo] at ht
  | cons c rest ih =>
      obtain ⟨ih1, ih2⟩ := ih
      have hconsAll : isJavaSpace c = false →
          ∀ t ∈ consHead c (splitGo false rest), headNotWs t = true := by
        intro hws t ht
        cases h : splitGo false rest with
        | nil => exact absurd h (splitGo_ne_nil rest false)
        | cons t0 ts0 =>
            rw [h] at ht
            simp only [consHead] at ht
            rcases List.mem_cons.mp ht with rfl | ht'
            · simp [headNotWs, hws]
            · exact ih2 t (by rw [h]; simpa using ht')
      have hconsTail : ∀ t ∈ (consHead c (splitGo false rest)).tail, headNotWs t = true := by
        intro t ht
        cases h : splitGo false rest with
        | nil => exact absurd h (splitGo_ne_nil rest false)
        | cons t0 ts0 =>
            rw [h] at ht
            simp only [consHead, List.tail_cons] at ht
            exact ih2 t (by rw [h]; simpa using ht)
      constructor
      · intro t ht
        simp only [splitGo] at ht
        by_cases hws : isJavaSpace c = true
        · rw [if_pos hws] at ht
          exact ih1 t ht
        · have hws' : isJavaSpace c = false := by
            cases hv : isJavaSpace c
            · rfl
            · exact absurd hv hws
          rw [if_neg hws] at ht
          by_cases hc : (c == ',') = true
          · rw [if_pos hc] at ht
            rcases List.mem_cons.mp ht with rfl | ht'
            · rfl
            · exact ih1 t ht'
          · rw [if_neg hc] at ht
            exact hconsAll hws' t ht
      · intro t ht
        simp only [splitGo] at ht
        by_cases hc : (c == ',') = true
        · rw [if_pos hc] at ht
          simp only [List.tail_cons] at ht
          exact ih1 t ht
        · rw [if_neg hc] at ht
          exact hconsTail t ht

/-- C4 counterexample: splitting does not trim — whitespace standing before
a comma stays on its token, so `"Action, Indie ,RPG"` yields
`["Action", "Indie ", "RPG"]`, not the trimmed `["Action", "Indie", "RPG"]`
the claim states. -/
theorem genre_split_claim_counterexample :
    genre_array (some "Action, Indie ,RPG") = some ["Action", "Indie ", "RPG"] ∧
    genre_array (some "Action, Indie ,RPG") ≠ some ["Action", "Indie", "RPG"] := by
  constructor
  · decide
  · decide

/-- C4 amended: the split consumes a comma together with the whitespace
that follows it, so no token after a separator starts with whitespace, but
tokens are not otherwise trimmed (whitespace before a comma is kept) and
empty tokens survive in the array; the exploded relation filters out empty
tokens.  In particular `"Action, Indie ,RPG"` yields
`["Action", "Indie ", "RPG"]`. -/
theorem genre_split_claim_amended (raw : String) :
    genre_array (some "Action, Indie ,RPG") = some ["Action", "Indie ", "RPG"] ∧
    explodeGenres (some "Action, Indie ,RPG") = ["Action", "Indie ", "RPG"] ∧
    (∀ t ∈ explodeGenres (some raw), t ≠ "") ∧
    (∀ t ∈ (splitCommaWs raw.toList).tail, headNotWs t = true) := by
  refine ⟨by decide, by decide, ?_, (splitGo_headNotWs raw.toList).2⟩
  intro t ht
  have ht' : t ∈ ((splitCommaWs raw.toList).map String.mk).filter (fun t => t != "") := ht
  have := (List.mem_filter.mp ht').2
  simpa using this

/-! ## C7: empty or null genre input -/

/-- C7 counterexample: for the empty-string input the derived array is the
singleton `[""]`, not the empty list the claim states. -/
theorem empty_genre_claim_counterexample :
    genre_array (some "") = some [""] ∧
    some ([""] : List String) ≠ some ([] : List String) := by
  constructor
  · decide
  · decide

/-- C7 amended: a null `genre_raw` gives a null array and an empty-string
`genre_raw` gives the singleton `[""]`; in both cases the record
contributes zero rows to the exploded genre relation (the null array
explodes to nothing, the empty token is removed by the filter). -/
theorem empty_genre_claim_amended :
    genre_array none = none ∧
    genre_array (some "") = some [""] ∧
    explodeGenres none = [] ∧
    explodeGenres (some "") = [] := by
  refine ⟨rfl, by decide, rfl, by decide⟩

/-! ## C6: records with a missing identifier -/

/-- C6 counterexample: `build_games_df` is a pure projection — the record
with a null id is kept in the output, so the claim that such records are
dropped (and counted) fails already on the one-record table `[rMissingId]`. -/
theorem missing_id_claim_counterexample :
    ¬ (∀ rs : List RawRecord,
        buildGamesDf rs = (rs.filter fun r => r.id.isSome).map flattenRecord) := by
  intro h
  exact absurd (h [rMissingId]) (by decide)

/-- C6 amended: no record is dropped and nothing is counted —
`build_games_df` keeps every input record, id present or not; a missing
identifier simply yields a null id column. -/
theorem missing_id_claim_amended (rs : List RawRecord) :
    (buildGamesDf rs).length = rs.length ∧
    ∀ r ∈ rs, flattenRecord r ∈ buildGamesDf rs := by
  constructor
  · exact List.length_map rs flattenRecord
  · intro r hr
    exact List.mem_map_of_mem flattenRecord hr

/-! ## C8: absent platform flags -/

/-- C8 counterexample: a record whose `data.platforms` struct is absent
flattens to null platform columns, not to `false` as the claim states. -/
theorem platform_absent_claim_counterexample :
    (flattenRecord noPlatformsRecord).platform_windows = none ∧
    (flattenRecord noPlatformsRecord).platform_windows ≠ some false ∧
    (flattenRecord noPlatformsRecord).platform_mac ≠ some false ∧
    (flattenRecord noPlatformsRecord).platform_linux ≠ some false := by
  refine ⟨rfl, by decide, by decide, by decide⟩

/-- C8 amended: an absent platform flag flattens to null, not false.  In
the consumers that test a flag with `== True` — the platform counts
`F.when(col == True, 1).otherwise(0)` and the `filter(col = true)`
selections — a null flag behaves exactly like false (the record is not
counted or kept).  But in the platform-profile columns of lines 913-938,
computed with `== False` comparisons, null diverges from false: the record
`winNoMacRecord` (windows true, linux false, mac absent) gets a null
`is_windows_only`, counted as 0 and excluded by filters, whereas the same
record with an explicitly false mac flag gets a true one. -/
theorem platform_absent_claim_amended (r : RawRecord) :
    ((r.data = none ∨ (∃ d, r.data = some d ∧ d.platforms = none) ∨
      (∃ d p, r.data = some d ∧ d.platforms = some p ∧ p.windows = none)) →
        (flattenRecord r).platform_windows = none) ∧
    ((r.data = none ∨ (∃ d, r.data = some d ∧ d.platforms = none) ∨
      (∃ d p, r.data = some d ∧ d.platforms = some p ∧ p.mac = none)) →
        (flattenRecord r).platform_mac = none) ∧
    ((r.data = none ∨ (∃ d, r.data = some d ∧ d.platforms = none) ∨
      (∃ d p, r.data = some d ∧ d.platforms = some p ∧ p.linux = none)) →
        (flattenRecord r).platform_linux = none) ∧
    whenTrueOne none = 0 ∧ whenTrueOne (some false) = 0 ∧ whenTrueOne (some true) = 1 ∧
    ((flattenRecord r).platform_windows = none ∨
      (flattenRecord r).platform_windows = some false →
        whenTrueOne ((flattenRecord r).platform_windows) = 0) ∧
    (∀ x : Option Bool, whenTrueOne (sparkEqTrue x) = whenTrueOne x) ∧
    sparkEqFalse none = none ∧
    sparkEqFalse (some false) = some true ∧
    is_windows_only (flattenRecord winNoMacRecord) = none ∧
    whenTrueOne (is_windows_only (flattenRecord winNoMacRecord)) = 0 ∧
    is_windows_only (flattenRecord winFalseMacRecord) = some true ∧
    whenTrueOne (is_windows_only (flattenRecord winFalseMacRecord)) = 1 := by
  refine ⟨?_, ?_, ?_, rfl, rfl, rfl, ?_, ?_, rfl, rfl,
    by decide, by decide, by decide, by decide⟩
  · rintro (h | ⟨d, hd, hp⟩ | ⟨d, p, hd, hp, hw⟩)
    · simp [flattenRecord, h]
    · simp [flattenRecord, hd, hp]
    · simp [flattenRecord, hd, hp, hw]
  · rintro (h | ⟨d, hd, hp⟩ | ⟨d, p, hd, hp, hw⟩)
    · simp [flattenRecord, h]
    · simp [flattenRecord, hd, hp]
    · simp [flattenRecord, hd, hp, hw]
  · rintro (h | ⟨d, hd, hp⟩ | ⟨d, p, hd, hp, hw⟩)
    · simp [flattenRecord, h]
    · simp [flattenRecord, hd, hp]
    · simp [flattenRecord, hd, hp, hw]
  · rintro (h | h) <;> simp [whenTrueOne, h]
  · intro x
    rcases x with _ | b
    · rfl
    · cases b <;> rfl

end SteamProj
